import Mathlib

/-!
Verification of the HTTP/1.1 connection dispatcher of this repository
(`src/xitca-http/src/h1/proto/encode.rs` and
`src/xitca-http/src/h1/proto/dispatcher.rs`) against its natural-language
specification.

Shallow-embedding conventions:
* byte buffers (`bytes::Bytes`, `BytesMut`, the write buffer) are lists of
  characters, one character per byte;
* machine integers (`u64` lengths) are `Nat`; subtractions below are guarded
  so they never underflow;
* fallible operations return `Except`/`Option`; a Rust `unreachable!` panic is
  `Option.none`;
* stateful code is explicit state passing; the asynchronous select points of
  the dispatcher are driven by explicit event lists (the choices the runtime
  environment makes), and the observable side effects are recorded as action
  traces.
-/

set_option maxRecDepth 8192

namespace H1

/-- Byte strings: `bytes::Bytes` and buffer contents are modelled as lists of
characters, one character per byte. -/
abbrev Bytes := List Char

/-- Shorthand turning a string literal into its byte list. -/
def bs (s : String) : Bytes := s.toList

/-- Modelled from the spec: the connection lifecycle enumeration of section 3,
`{Init, KeepAlive, Close, Upgrade}`; its declaring module
(`h1/proto/context.rs`) is not under `src/`. -/
inductive ConnectionType
  | Init
  | KeepAlive
  | Close
  | Upgrade
deriving DecidableEq, Repr

/-- Modelled from the spec: the transfer-encoder state sum of section 3,
`{Eof, Length(remaining: u64), EncodeChunked, PlainChunked}`; the declaring
module (`h1/proto/codec.rs`) is not under `src/`.  The decoder-only
constructors of the Rust `Kind` are never produced by the encoder
constructors in `encode.rs` (its `_ => unreachable!()` arms), so they are
omitted here. -/
inductive Kind
  | Eof
  | Length (remaining : Nat)
  | EncodeChunked
  | PlainChunked
deriving DecidableEq, Repr

/-- `TransferEncoding` struct of `encode.rs`: a wrapper around `Kind`. -/
structure TransferEncoding where
  kind : Kind
deriving DecidableEq, Repr

/-- `TransferEncoding::eof`. -/
def TransferEncoding.eof : TransferEncoding := ⟨Kind.Eof⟩

/-- `TransferEncoding::chunked`. -/
def TransferEncoding.chunked : TransferEncoding := ⟨Kind.EncodeChunked⟩

/-- `TransferEncoding::plain_chunked`. -/
def TransferEncoding.plainChunked : TransferEncoding := ⟨Kind.PlainChunked⟩

/-- `TransferEncoding::length`. -/
def TransferEncoding.length (len : Nat) : TransferEncoding := ⟨Kind.Length len⟩

/-- `TransferEncoding::chunked_from`: plain chunked when the connection is in
upgrade state, otherwise real chunked encoding. -/
def TransferEncoding.chunkedFrom (ctype : ConnectionType) : TransferEncoding :=
  if ctype = ConnectionType.Upgrade then TransferEncoding.plainChunked
  else TransferEncoding.chunked

/-- Modelled from the spec: `WriteBuf::write_buf` appends the bytes to the
write buffer (`h1/proto/buf.rs` is not under `src/`; spec section 3). -/
def writeBuf (buf : Bytes) (bytes : Bytes) : Bytes := buf ++ bytes

/-- Modelled from the spec: `WriteBuf::write_static` appends the static bytes
to the write buffer (`h1/proto/buf.rs` is not under `src/`; spec section 3). -/
def writeStatic (buf : Bytes) (bytes : Bytes) : Bytes := buf ++ bytes

/-- Modelled from the spec: `WriteBuf::write_chunk` prepends the hexadecimal
chunk length line and appends CRLF around the data (`h1/proto/buf.rs` is not
under `src/`; spec section 3). -/
def writeChunk (buf : Bytes) (bytes : Bytes) : Bytes :=
  buf ++ Nat.toDigits 16 bytes.length ++ bs "\r\n" ++ bytes ++ bs "\r\n"

/-- `TransferEncoding::encode` of `encode.rs`: skip empty input; `Eof` and
`PlainChunked` pass bytes through, `EncodeChunked` writes a chunk, and
`Length(remaining)` writes at most `remaining` bytes, discarding the rest. -/
def TransferEncoding.encode (t : TransferEncoding) (bytes : Bytes) (buf : Bytes) :
    TransferEncoding × Bytes :=
  if bytes.isEmpty then (t, buf)
  else
    match t.kind with
    | Kind.Eof => (t, writeBuf buf bytes)
    | Kind.PlainChunked => (t, writeBuf buf bytes)
    | Kind.EncodeChunked => (t, writeChunk buf bytes)
    | Kind.Length remaining =>
      if 0 < remaining then
        let len := min remaining bytes.length
        (TransferEncoding.length (remaining - len), writeBuf buf (bytes.take len))
      else (t, buf)

/-- `TransferEncoding::encode_eof` of `encode.rs`.  `none` models the
`unreachable!` panic taken when a `Length` encoder still has bytes
remaining. -/
def TransferEncoding.encodeEof (t : TransferEncoding) (buf : Bytes) : Option Bytes :=
  match t.kind with
  | Kind.Eof => some buf
  | Kind.PlainChunked => some buf
  | Kind.Length 0 => some buf
  | Kind.EncodeChunked => some (writeStatic buf (bs "0\r\n\r\n"))
  | Kind.Length _ => none

/-- Iterated `TransferEncoding::encode` over a sequence of body chunks,
threading the encoder state and the write buffer. -/
def encodeAll (t : TransferEncoding) (chunks : List Bytes) (buf : Bytes) :
    TransferEncoding × Bytes :=
  chunks.foldl (fun p b => TransferEncoding.encode p.1 b p.2) (t, buf)

lemma list_ne_append_of_ne_nil {α : Type _} (l t : List α) (h : t ≠ []) :
    l ≠ l ++ t := by
  intro he
  have hl := congrArg List.length he
  simp only [List.length_append] at hl
  have : t.length = 0 := by omega
  exact h (List.length_eq_zero.mp this)

/-- Single-call characterization of the `Length` encoder: exactly
`min remaining bytes.length` input bytes (its prefix) are appended and
`remaining` decreases by that amount. -/
lemma length_encode_eq (r : Nat) (bytes buf : Bytes) :
    TransferEncoding.encode (TransferEncoding.length r) bytes buf =
      (TransferEncoding.length (r - min r bytes.length),
        buf ++ bytes.take (min r bytes.length)) := by
  cases bytes with
  | nil => simp [TransferEncoding.encode, TransferEncoding.length]
  | cons c cs =>
    simp only [TransferEncoding.encode, TransferEncoding.length, List.isEmpty_cons,
      Bool.false_eq_true, if_false]
    rcases Nat.eq_zero_or_pos r with hr | hr
    · subst hr
      simp [writeBuf]
    · simp [hr, writeBuf]

lemma encodeAll_length_le (chunks : List Bytes) :
    ∀ (r : Nat) (buf : Bytes),
      (encodeAll (TransferEncoding.length r) chunks buf).2.length ≤ buf.length + r := by
  induction chunks with
  | nil => intro r buf; simp [encodeAll]
  | cons b rest ih =>
    intro r buf
    have hstep := length_encode_eq r b buf
    have hfold : encodeAll (TransferEncoding.length r) (b :: rest) buf =
        encodeAll (TransferEncoding.length (r - min r b.length)) rest
          (buf ++ b.take (min r b.length)) := by
      simp only [encodeAll, List.foldl_cons, hstep]
    rw [hfold]
    have hrec := ih (r - min r b.length) (buf ++ b.take (min r b.length))
    have htake : (b.take (min r b.length)).length = min r b.length := by
      rw [List.length_take]
      omega
    have hlen : (buf ++ b.take (min r b.length)).length = buf.length + min r b.length := by
      simp [htake]
    omega

/-- C5: for every encoder state, `encode` on empty bytes leaves the write
buffer (and the encoder) unchanged, and `encode_eof` appends the terminator
`0\r\n\r\n` to the write buffer if and only if the encoder is the chunked
(`EncodeChunked`) encoder. -/
theorem c5_empty_encode_and_eof_terminator (t : TransferEncoding) (buf : Bytes) :
    TransferEncoding.encode t (bs "") buf = (t, buf) ∧
      (TransferEncoding.encodeEof t buf = some (buf ++ bs "0\r\n\r\n") ↔
        t.kind = Kind.EncodeChunked) := by
  constructor
  · simp [TransferEncoding.encode, bs]
  · have hne : bs "0\r\n\r\n" ≠ ([] : Bytes) := by decide
    obtain ⟨k⟩ := t
    cases k with
    | Eof =>
      simp only [TransferEncoding.encodeEof]
      constructor
      · intro h
        exact absurd (Option.some.inj h) (list_ne_append_of_ne_nil buf _ hne)
      · intro h; cases h
    | PlainChunked =>
      simp only [TransferEncoding.encodeEof]
      constructor
      · intro h
        exact absurd (Option.some.inj h) (list_ne_append_of_ne_nil buf _ hne)
      · intro h; cases h
    | EncodeChunked =>
      simp [TransferEncoding.encodeEof, writeStatic]
    | Length n =>
      cases n with
      | zero =>
        simp only [TransferEncoding.encodeEof]
        constructor
        · intro h
          exact absurd (Option.some.inj h) (list_ne_append_of_ne_nil buf _ hne)
        · intro h; cases h
      | succ m =>
        simp only [TransferEncoding.encodeEof]
        constructor
        · intro h; cases h
        · intro h; cases h

/-- C6: the `Length(remaining)` encoder writes exactly
`min remaining bytes.length` bytes of its input (a prefix; the rest is
silently discarded) and decreases `remaining` by that amount, and over any
sequence of `encode` calls the total number of bytes appended to the write
buffer never exceeds the initial `remaining`. -/
theorem c6_length_encoder_truncates (r : Nat) (bytes buf : Bytes) :
    TransferEncoding.encode (TransferEncoding.length r) bytes buf =
        (TransferEncoding.length (r - min r bytes.length),
          buf ++ bytes.take (min r bytes.length)) ∧
      ∀ chunks : List Bytes,
        (encodeAll (TransferEncoding.length r) chunks buf).2.length ≤ buf.length + r := by
  exact ⟨length_encode_eq r bytes buf, fun chunks => encodeAll_length_le chunks r buf⟩

/-- C10: calling `encode_eof` while the encoder is `Length(n)` with `n > 0`
(the body stream ended short of the declared content-length) hits the
`unreachable!` panic — modelled as `none` — rather than truncating or
returning an error. -/
theorem c10_encode_eof_underrun_panics (n : Nat) (buf : Bytes) :
    TransferEncoding.encodeEof (TransferEncoding.length (n + 1)) buf = none := by
  rfl

/-- Modelled from the spec: the per-connection context flags of section 4.5
(`h1/proto/context.rs` is not under `src/`): current connection type, the
sticky force-close flag, the connect-method and expect flags, and the cached
formatted date the encoder copies into responses. -/
structure Ctx where
  ctype : ConnectionType
  forceClose : Bool
  connectMethod : Bool
  expectHeader : Bool
  date : String
deriving DecidableEq, Repr

/-- HTTP version of the response parts (`http::Version`), restricted to the
variants the encoder distinguishes. -/
inductive Version
  | http10
  | http11
  | otherVersion
deriving DecidableEq, Repr

/-- Header names as the encoder's match distinguishes them.  The `http` crate
stores names lowercased and compares them canonically, so `other s` stands
for any name distinct from the four distinguished ones. -/
inductive HeaderName
  | contentLength
  | transferEncoding
  | connection
  | date
  | other (s : String)
deriving DecidableEq, Repr

/-- Wire form of a header name (`HeaderName::as_str`). -/
def HeaderName.asStr : HeaderName → String
  | contentLength => "content-length"
  | transferEncoding => "transfer-encoding"
  | connection => "connection"
  | date => "date"
  | other s => s

/-- One response header in drain order.  Header values are modelled as
strings, i.e. the `to_str` conversions of `encode_head_inner` always
succeed. -/
structure Header where
  name : HeaderName
  value : String
deriving DecidableEq, Repr

/-- Response `http::response::Parts`: version, numeric status code and the
header list in drain order. -/
structure Parts where
  version : Version
  status : Nat
  headers : List Header
deriving DecidableEq, Repr

/-- Body size hint (`ResponseBodySize`, declared in
`src/actix-http-alt/src/body.rs` and identical in `xitca-http`): `None`,
`Sized(n)` or `Stream`. -/
inductive ResponseBodySize
  | none
  | sized (n : Nat)
  | stream
deriving DecidableEq, Repr

/-- Modelled from the spec: the request/response parse-error variants the
dispatcher distinguishes (section 7; `h1/proto/error.rs` is not under
`src/`).  The request-parse failures other than header-too-large are
collapsed into `otherMalformed`. -/
inductive Parse
  | HeaderTooLarge
  | StatusCode
  | HeaderValue
  | otherMalformed
deriving DecidableEq, Repr

/-- Modelled from the spec: protocol-level errors (`h1/proto/error.rs` is not
under `src/`); only the `Parse` constructor is reachable in the code under
verification. -/
inductive ProtoError
  | Parse (p : Parse)
deriving DecidableEq, Repr

/-- ASCII case-insensitive byte-string equality
(`str::eq_ignore_ascii_case`); the tokens compared by the encoder are
ASCII. -/
def asciiEqIgnoreCase (a b : Bytes) : Bool :=
  a.map Char.toLower == b.map Char.toLower

/-- Rust `str::parse::<u64>`: an optional leading plus sign, one or more
ASCII digits, and a value within the `u64` range. -/
def parseU64 (s : String) : Option Nat :=
  let cs := s.toList
  let t := match cs with
    | '+' :: rest => rest
    | _ => cs
  if t.isEmpty then Option.none
  else if t.all Char.isDigit then
    let n := t.foldl (fun acc c => acc * 10 + (c.toNat - 48)) 0
    if n < 2 ^ 64 then some n else Option.none
  else Option.none

/-- Rust `str::split(',')`: splits at every comma, keeping empty pieces. -/
def splitComma : Bytes → List Bytes
  | [] => [[]]
  | c :: rest =>
    match splitComma rest with
    | [] => [[]]
    | g :: gs => if c = ',' then [] :: g :: gs else (c :: g) :: gs

/-- Rust `str::trim`: strip leading and trailing whitespace. -/
def trimBytes (cs : Bytes) : Bytes :=
  ((cs.dropWhile Char.isWhitespace).reverse.dropWhile Char.isWhitespace).reverse

/-- Effect of one `Connection` header token: `close`, `keep-alive` and
`upgrade` update the connection type (the `set_ctype` calls in the header
loop of `encode_head_inner`); any other token leaves it unchanged. -/
def connectionTokenUpdate (ct : ConnectionType) (tok : Bytes) : ConnectionType :=
  let v := trimBytes tok
  if asciiEqIgnoreCase v (bs "close") then ConnectionType.Close
  else if asciiEqIgnoreCase v (bs "keep-alive") then ConnectionType.KeepAlive
  else if asciiEqIgnoreCase v (bs "upgrade") then ConnectionType.Upgrade
  else ct

/-- Folding `connectionTokenUpdate` over the comma-separated tokens of a
`Connection` header value. -/
def connUpdate (ct : ConnectionType) (value : String) : ConnectionType :=
  (splitComma value.toList).foldl connectionTokenUpdate ct

/-- Canonical reason phrases (`StatusCode::canonical_reason` of the external
`http` crate), tabulated for the status codes this development evaluates;
`encode_version_status_reason` substitutes the literal `<none>` when the
table has no entry. -/
def canonicalReason : Nat → Option String
  | 101 => some "Switching Protocols"
  | 200 => some "OK"
  | 400 => some "Bad Request"
  | 431 => some "Request Header Fields Too Large"
  | 500 => some "Internal Server Error"
  | _ => Option.none

/-- `encode_version_status_reason` of `encode.rs`: the `HTTP/1.1 200 OK`
shortcut, otherwise version prefix (unknown versions fall back to
`HTTP/1.1`), status code, reason phrase and CRLF. -/
def encodeVersionStatusReason (version : Version) (status : Nat) : Bytes :=
  if version = Version.http11 ∧ status = 200 then bs "HTTP/1.1 200 OK\r\n"
  else
    (match version with
      | Version.http10 => bs "HTTP/1.0 "
      | _ => bs "HTTP/1.1 ") ++
      bs (toString status) ++ bs " " ++
      bs ((canonicalReason status).getD "<none>") ++ bs "\r\n"

/-- `StatusCode::is_success`: 2xx status codes. -/
def statusIsSuccess (n : Nat) : Bool := 200 ≤ n && n ≤ 299

/-- `StatusCode::is_informational`: 1xx status codes. -/
def statusIsInformational (n : Nat) : Bool := 100 ≤ n && n ≤ 199

/-- The initial `skip_len` match of `encode_head_inner`: 101 Switching
Protocols allows framing headers; a 2xx response while the connect-method
flag is set forces `skip_len`; any other 1xx response is refused with
`Parse::StatusCode`. -/
def initialSkipLen (ctx : Ctx) (status : Nat) : Except ProtoError Bool :=
  if status = 101 then Except.ok false
  else if ctx.connectMethod && statusIsSuccess status then Except.ok true
  else if statusIsInformational status then
    Except.error (ProtoError.Parse Parse.StatusCode)
  else Except.ok false

/-- State threaded through the header drain loop of `encode_head_inner`. -/
structure HeadState where
  skipLen : Bool
  skipDate : Bool
  encoding : TransferEncoding
  ctx : Ctx
  buf : Bytes
deriving DecidableEq, Repr

/-- Appends the wire form `name: value\r\n` of one header: the four
`put_slice` calls at the bottom of the header loop body. -/
def writeHeader (st : HeadState) (h : Header) : HeadState :=
  { st with buf := st.buf ++ bs h.name.asStr ++ bs ": " ++ bs h.value ++ bs "\r\n" }

/-- One iteration of the header drain loop of `encode_head_inner`:
`Content-Length` parses its value and installs a `Length` encoder,
`Transfer-Encoding` installs the chunked-from-ctype encoder, `Connection` is
dropped entirely under force-close and otherwise updates the connection
type, `Date` marks `skip_date`; every non-dropped header is then written
out. -/
def processHeader (st : HeadState) (h : Header) : Except ProtoError HeadState :=
  match h.name with
  | HeaderName.contentLength =>
    match parseU64 h.value with
    | Option.none => Except.error (ProtoError.Parse Parse.HeaderValue)
    | some v =>
      Except.ok (writeHeader
        { st with encoding := TransferEncoding.length v, skipLen := true } h)
  | HeaderName.transferEncoding =>
    Except.ok (writeHeader
      { st with encoding := TransferEncoding.chunkedFrom st.ctx.ctype, skipLen := true } h)
  | HeaderName.connection =>
    if st.ctx.forceClose then Except.ok st
    else
      Except.ok (writeHeader
        { st with ctx := { st.ctx with ctype := connUpdate st.ctx.ctype h.value } } h)
  | HeaderName.date => Except.ok (writeHeader { st with skipDate := true } h)
  | HeaderName.other _ => Except.ok (writeHeader st h)

/-- The header drain loop (`for (name, value) in parts.headers.drain()`). -/
def headerLoop (st : HeadState) : List Header → Except ProtoError HeadState
  | [] => Except.ok st
  | h :: hs =>
    match processHeader st h with
    | Except.error e => Except.error e
    | Except.ok st' => headerLoop st' hs

/-- The framing block of `encode_head_inner` (`if !skip_len { match size`):
the framing header bytes appended and the (possibly replaced) encoder. -/
def framingBlock (skipLen : Bool) (size : ResponseBodySize) (ctype : ConnectionType)
    (enc : TransferEncoding) : Bytes × TransferEncoding :=
  if skipLen then ([], enc)
  else
    match size with
    | ResponseBodySize.none => ([], TransferEncoding.eof)
    | ResponseBodySize.stream =>
      (bs "transfer-encoding: chunked\r\n", TransferEncoding.chunkedFrom ctype)
    | ResponseBodySize.sized n =>
      (bs "content-length: " ++ bs (toString n) ++ bs "\r\n", TransferEncoding.length n)

/-- The date block of `encode_head_inner`: the shared cached date followed by
the final CRLF, or just the final CRLF when the service supplied `Date`. -/
def dateBlock (skipDate : Bool) (date : String) : Bytes :=
  if skipDate then bs "\r\n" else bs "date: " ++ bs date ++ bs "\r\n\r\n"

/-- `Context::encode_head_inner` of `encode.rs`: the status-line policy
checks, the status line, the header drain loop, the forced
`connection: close`, framing derivation from the size hint when no framing
header was seen, and the date terminator.  The returned triple is the
transfer encoder, the head bytes, and the updated connection context
(the header-map/extension pooling of the source is allocation reuse with no
observable effect and is not modelled). -/
def encodeHeadInner (ctx : Ctx) (parts : Parts) (size : ResponseBodySize) :
    Except ProtoError (TransferEncoding × Bytes × Ctx) :=
  match initialSkipLen ctx parts.status with
  | Except.error e => Except.error e
  | Except.ok skipLen0 =>
    match headerLoop
        { skipLen := skipLen0, skipDate := false, encoding := TransferEncoding.eof,
          ctx := ctx, buf := encodeVersionStatusReason parts.version parts.status }
        parts.headers with
    | Except.error e => Except.error e
    | Except.ok st =>
      let buf1 := st.buf ++ (if st.ctx.forceClose then bs "connection: close\r\n" else [])
      let fr := framingBlock st.skipLen size st.ctx.ctype st.encoding
      Except.ok (fr.2, buf1 ++ fr.1 ++ dateBlock st.skipDate st.ctx.date, st.ctx)

/-- Is this header `Content-Length` or `Transfer-Encoding`? -/
def Header.isFraming (h : Header) : Bool :=
  match h.name with
  | HeaderName.contentLength => true
  | HeaderName.transferEncoding => true
  | _ => false

/-- Does the header list contain a framing header? -/
def containsFraming (hs : List Header) : Bool := hs.any Header.isFraming

/-- The last framing header of the list, if any. -/
def lastFraming : List Header → Option Header
  | [] => Option.none
  | h :: hs =>
    match lastFraming hs with
    | some x => some x
    | Option.none => if h.isFraming then some h else Option.none

/-- Is the encoder one of the two chunked variants, i.e. in the codomain of
`TransferEncoding::chunked_from`? -/
def TransferEncoding.isChunked (t : TransferEncoding) : Bool :=
  match t.kind with
  | Kind.EncodeChunked => true
  | Kind.PlainChunked => true
  | _ => false

example :
    encodeHeadInner
      { ctype := ConnectionType.KeepAlive, forceClose := false, connectMethod := false,
        expectHeader := false, date := "D" }
      { version := Version.http11, status := 200, headers := [] }
      (ResponseBodySize.sized 5) =
      Except.ok (TransferEncoding.length 5,
        bs "HTTP/1.1 200 OK\r\ncontent-length: 5\r\ndate: D\r\n\r\n",
        { ctype := ConnectionType.KeepAlive, forceClose := false, connectMethod := false,
          expectHeader := false, date := "D" }) := by
  rfl

example :
    encodeHeadInner
      { ctype := ConnectionType.KeepAlive, forceClose := false, connectMethod := false,
        expectHeader := false, date := "D" }
      { version := Version.http11, status := 200,
        headers := [{ name := HeaderName.connection, value := "close" },
                    { name := HeaderName.transferEncoding, value := "chunked" }] }
      (ResponseBodySize.sized 5) =
      Except.ok (TransferEncoding.chunked,
        bs "HTTP/1.1 200 OK\r\nconnection: close\r\ntransfer-encoding: chunked\r\ndate: D\r\n\r\n",
        { ctype := ConnectionType.Close, forceClose := false, connectMethod := false,
          expectHeader := false, date := "D" }) := by
  rfl

lemma chunkedFrom_isChunked (c : ConnectionType) :
    (TransferEncoding.chunkedFrom c).isChunked = true := by
  unfold TransferEncoding.chunkedFrom
  split <;> rfl

/-- Exhaustive description of one header-loop step: either a malformed
`Content-Length` value fails with `Parse::HeaderValue`, or the step succeeds
with `skip_len` accumulating framing headers, the force-close flag and date
untouched, and the encoder rewritten exactly by framing headers. -/
lemma processHeader_cases (st : HeadState) (h : Header) :
    (h.name = HeaderName.contentLength ∧ parseU64 h.value = Option.none ∧
      processHeader st h = Except.error (ProtoError.Parse Parse.HeaderValue)) ∨
    (∃ st', processHeader st h = Except.ok st' ∧
      st'.skipLen = (st.skipLen || h.isFraming) ∧
      st'.ctx.forceClose = st.ctx.forceClose ∧
      st'.ctx.date = st.ctx.date ∧
      (h.isFraming = false → st'.encoding = st.encoding) ∧
      (h.name = HeaderName.contentLength →
        ∃ v, parseU64 h.value = some v ∧ st'.encoding = TransferEncoding.length v) ∧
      (h.name = HeaderName.transferEncoding → st'.encoding.isChunked = true)) := by
  obtain ⟨nm, val⟩ := h
  cases nm with
  | contentLength =>
    cases hp : parseU64 val with
    | none =>
      left
      exact ⟨rfl, by simp [hp], by simp [processHeader, hp]⟩
    | some v =>
      right
      refine ⟨writeHeader
          { st with encoding := TransferEncoding.length v, skipLen := true }
          ⟨HeaderName.contentLength, val⟩,
        by simp [processHeader, hp], ?_, ?_, ?_, ?_, ?_, ?_⟩ <;>
        simp [writeHeader, Header.isFraming, hp]
  | transferEncoding =>
    right
    refine ⟨writeHeader
        { st with encoding := TransferEncoding.chunkedFrom st.ctx.ctype, skipLen := true }
        ⟨HeaderName.transferEncoding, val⟩,
      by simp [processHeader], ?_, ?_, ?_, ?_, ?_, ?_⟩ <;>
      simp [writeHeader, Header.isFraming, chunkedFrom_isChunked]
  | connection =>
    right
    by_cases hfc : st.ctx.forceClose = true
    · refine ⟨st, by simp [processHeader, hfc], ?_, ?_, ?_, ?_, ?_, ?_⟩ <;>
        simp [Header.isFraming]
    · simp only [Bool.not_eq_true] at hfc
      refine ⟨writeHeader
          { st with ctx := { st.ctx with ctype := connUpdate st.ctx.ctype val } }
          ⟨HeaderName.connection, val⟩,
        by simp [processHeader, hfc], ?_, ?_, ?_, ?_, ?_, ?_⟩ <;>
        simp [writeHeader, Header.isFraming]
  | date =>
    right
    refine ⟨writeHeader { st with skipDate := true } ⟨HeaderName.date, val⟩,
      by simp [processHeader], ?_, ?_, ?_, ?_, ?_, ?_⟩ <;>
      simp [writeHeader, Header.isFraming]
  | other s =>
    right
    refine ⟨writeHeader st ⟨HeaderName.other s, val⟩,
      by simp [processHeader], ?_, ?_, ?_, ?_, ?_, ?_⟩ <;>
      simp [writeHeader, Header.isFraming]

/-- The header drain loop can only fail with `Parse::HeaderValue`. -/
lemma headerLoop_error_headerValue (hs : List Header) :
    ∀ st e, headerLoop st hs = Except.error e → e = ProtoError.Parse Parse.HeaderValue := by
  induction hs with
  | nil => intro st e h; cases h
  | cons hd tl ih =>
    intro st e hrun
    rcases processHeader_cases st hd with ⟨_, _, herr⟩ | ⟨st1, hok, _⟩
    · rw [headerLoop, herr] at hrun
      cases hrun
      rfl
    · rw [headerLoop, hok] at hrun
      exact ih st1 e hrun

/-- Accumulated effect of a successful header drain loop on `skip_len`, the
force-close flag, the cached date, and the encoder (characterized through
the last framing header of the list). -/
lemma headerLoop_ok_props (hs : List Header) :
    ∀ st st', headerLoop st hs = Except.ok st' →
      st'.skipLen = (st.skipLen || containsFraming hs) ∧
      st'.ctx.forceClose = st.ctx.forceClose ∧
      st'.ctx.date = st.ctx.date ∧
      (lastFraming hs = Option.none → st'.encoding = st.encoding) ∧
      (∀ h, lastFraming hs = some h →
        (h.name = HeaderName.contentLength →
          ∃ v, parseU64 h.value = some v ∧ st'.encoding = TransferEncoding.length v) ∧
        (h.name = HeaderName.transferEncoding → st'.encoding.isChunked = true)) := by
  induction hs with
  | nil =>
    intro st st' hrun
    rw [headerLoop] at hrun
    injection hrun with hrun
    subst hrun
    simp [containsFraming, lastFraming]
  | cons hd tl ih =>
    intro st st' hrun
    rcases processHeader_cases st hd with ⟨_, _, herr⟩ | ⟨st1, hok, hskip, hfc, hdate, hpres, hcl, hte⟩
    · rw [headerLoop, herr] at hrun
      cases hrun
    · rw [headerLoop, hok] at hrun
      obtain ⟨ihskip, ihfc, ihdate, ihnone, ihsome⟩ := ih st1 st' hrun
      refine ⟨?_, by rw [ihfc, hfc], by rw [ihdate, hdate], ?_, ?_⟩
      · rw [ihskip, hskip]
        simp [containsFraming, List.any_cons, Bool.or_assoc]
      · intro hlast
        rw [lastFraming] at hlast
        cases hlf : lastFraming tl with
        | none =>
          rw [hlf] at hlast
          cases hfr : hd.isFraming with
          | false =>
            rw [ihnone hlf, hpres hfr]
          | true => simp [hfr] at hlast
        | some x => simp [hlf] at hlast
      · intro h hlast
        rw [lastFraming] at hlast
        cases hlf : lastFraming tl with
        | none =>
          rw [hlf] at hlast
          cases hfr : hd.isFraming with
          | false => simp [hfr] at hlast
          | true =>
            simp only [hfr, if_true] at hlast
            injection hlast with hlast
            subst hlast
            have henc := ihnone hlf
            constructor
            · intro hn
              obtain ⟨v, hv, he⟩ := hcl hn
              exact ⟨v, hv, by rw [henc, he]⟩
            · intro hn
              rw [henc]
              exact hte hn
        | some x =>
          rw [hlf] at hlast
          injection hlast with hlast
          subst hlast
          exact ihsome x hlf

lemma lastFraming_none_iff (hs : List Header) :
    lastFraming hs = Option.none ↔ containsFraming hs = false := by
  induction hs with
  | nil => simp [lastFraming, containsFraming]
  | cons hd tl ih =>
    rw [lastFraming, containsFraming, List.any_cons]
    cases hlf : lastFraming tl with
    | none =>
      have htl : tl.any Header.isFraming = false := by
        have := ih.mp hlf
        rwa [containsFraming] at this
      cases hfr : hd.isFraming <;> simp [htl, hfr]
    | some x =>
      have htl : containsFraming tl = true := by
        cases hc : containsFraming tl with
        | false => rw [ih.mpr hc] at hlf; cases hlf
        | true => rfl
      rw [containsFraming] at htl
      simp [htl]

/-- Wire bytes of one written header line (`name: value\r\n`, the four
`put_slice` calls of the loop body). -/
def headerWire (h : Header) : Bytes :=
  bs h.name.asStr ++ bs ": " ++ bs h.value ++ bs "\r\n"

/-- Bytes one header contributes inside the drain loop: a `Connection`
header is dropped entirely under force-close, every other header is written
verbatim. -/
def headerLineBytes (forceClose : Bool) (h : Header) : Bytes :=
  match h.name with
  | HeaderName.connection => if forceClose then [] else headerWire h
  | _ => headerWire h

/-- Accumulated bytes the header drain loop writes (the force-close flag is
constant throughout the loop, so it can be a parameter). -/
def headerBytes (forceClose : Bool) : List Header → Bytes
  | [] => []
  | h :: hs => headerLineBytes forceClose h ++ headerBytes forceClose hs

/-- Is this the `Date` header? -/
def Header.isDate (h : Header) : Bool :=
  match h.name with
  | HeaderName.date => true
  | _ => false

/-- Does the header list contain a `Date` header? -/
def hasDateHeader (hs : List Header) : Bool := hs.any Header.isDate

/-- Byte-level description of one successful header-loop step: the buffer
grows by exactly that header's line (or nothing for a dropped `Connection`
header), `skip_date` accumulates `Date` headers, and the force-close flag is
untouched. -/
lemma processHeader_ok_buf (st : HeadState) (h : Header) (st1 : HeadState)
    (hok : processHeader st h = Except.ok st1) :
    st1.buf = st.buf ++ headerLineBytes st.ctx.forceClose h ∧
    st1.skipDate = (st.skipDate || h.isDate) ∧
    st1.ctx.forceClose = st.ctx.forceClose := by
  obtain ⟨nm, val⟩ := h
  cases nm with
  | contentLength =>
    cases hp : parseU64 val with
    | none => simp [processHeader, hp] at hok
    | some v =>
      simp only [processHeader, hp, Except.ok.injEq] at hok
      subst hok
      simp [writeHeader, headerLineBytes, headerWire, HeaderName.asStr, Header.isDate]
  | transferEncoding =>
    simp only [processHeader, Except.ok.injEq] at hok
    subst hok
    simp [writeHeader, headerLineBytes, headerWire, HeaderName.asStr, Header.isDate]
  | connection =>
    by_cases hfc : st.ctx.forceClose = true
    · simp only [processHeader, hfc, if_true, Except.ok.injEq] at hok
      subst hok
      simp [headerLineBytes, hfc, Header.isDate]
    · simp only [Bool.not_eq_true] at hfc
      simp only [processHeader, hfc, Bool.false_eq_true, if_false, Except.ok.injEq] at hok
      subst hok
      simp [writeHeader, headerLineBytes, headerWire, HeaderName.asStr, Header.isDate, hfc]
  | date =>
    simp only [processHeader, Except.ok.injEq] at hok
    subst hok
    simp [writeHeader, headerLineBytes, headerWire, HeaderName.asStr, Header.isDate]
  | other s =>
    simp only [processHeader, Except.ok.injEq] at hok
    subst hok
    simp [writeHeader, headerLineBytes, headerWire, HeaderName.asStr, Header.isDate]

/-- Byte-level description of the whole header drain loop: the buffer grows
by exactly the verbatim header lines, and `skip_date` ends up recording
whether a `Date` header was seen. -/
lemma headerLoop_buf_skipDate (hs : List Header) :
    ∀ st st', headerLoop st hs = Except.ok st' →
      st'.buf = st.buf ++ headerBytes st.ctx.forceClose hs ∧
      st'.skipDate = (st.skipDate || hasDateHeader hs) := by
  induction hs with
  | nil =>
    intro st st' h
    rw [headerLoop] at h
    injection h with h
    subst h
    simp [headerBytes, hasDateHeader]
  | cons hd tl ih =>
    intro st st' hrun
    rw [headerLoop] at hrun
    cases hph : processHeader st hd with
    | error e => rw [hph] at hrun; cases hrun
    | ok st1 =>
      rw [hph] at hrun
      obtain ⟨hb1, hd1, hf1⟩ := processHeader_ok_buf st hd st1 hph
      obtain ⟨hb2, hd2⟩ := ih st1 st' hrun
      constructor
      · rw [hb2, hb1, hf1]
        simp [headerBytes, List.append_assoc]
      · rw [hd2, hd1]
        simp [hasDateHeader, List.any_cons, Bool.or_assoc]

/-- C2: the encoder is resolved in favor of the service headers.  When the
drained headers contain `Content-Length` or `Transfer-Encoding`, the encoded
head and the returned encoder are independent of the body size hint and the
encoder comes from the (last such) header — `Length(parsed value)` for
`Content-Length`, chunked for `Transfer-Encoding`.  When no framing header
is present and `skip_len` was not forced at entry, encoder and framing
header are derived from the size hint, and the head bytes are pinned
exactly: status line, then the verbatim service header lines (none of which
is a framing header), then the optional forced `connection: close`, then —
only for `Sized(n)`/`Stream` — the derived `content-length: n` /
`transfer-encoding: chunked` line and nothing at all for `None`, then the
date block. -/
theorem c2_framing_resolved_in_favor_of_header (ctx : Ctx) (parts : Parts)
    (size : ResponseBodySize) :
    (containsFraming parts.headers = true →
      (∀ size', encodeHeadInner ctx parts size = encodeHeadInner ctx parts size') ∧
      (∀ enc buf ctx', encodeHeadInner ctx parts size = Except.ok (enc, buf, ctx') →
        ∃ h, lastFraming parts.headers = some h ∧
          (h.name = HeaderName.contentLength →
            ∃ v, parseU64 h.value = some v ∧ enc = TransferEncoding.length v) ∧
          (h.name = HeaderName.transferEncoding → enc.isChunked = true))) ∧
    (containsFraming parts.headers = false →
      initialSkipLen ctx parts.status = Except.ok false →
      ∀ enc buf ctx', encodeHeadInner ctx parts size = Except.ok (enc, buf, ctx') →
        (size = ResponseBodySize.none → enc = TransferEncoding.eof ∧
          buf = encodeVersionStatusReason parts.version parts.status ++
            headerBytes ctx.forceClose parts.headers ++
            (if ctx.forceClose then bs "connection: close\r\n" else []) ++
            dateBlock (hasDateHeader parts.headers) ctx.date) ∧
        (∀ n, size = ResponseBodySize.sized n → enc = TransferEncoding.length n ∧
          buf = encodeVersionStatusReason parts.version parts.status ++
            headerBytes ctx.forceClose parts.headers ++
            (if ctx.forceClose then bs "connection: close\r\n" else []) ++
            bs "content-length: " ++ bs (toString n) ++ bs "\r\n" ++
            dateBlock (hasDateHeader parts.headers) ctx.date) ∧
        (size = ResponseBodySize.stream → enc = TransferEncoding.chunkedFrom ctx'.ctype ∧
          buf = encodeVersionStatusReason parts.version parts.status ++
            headerBytes ctx.forceClose parts.headers ++
            (if ctx.forceClose then bs "connection: close\r\n" else []) ++
            bs "transfer-encoding: chunked\r\n" ++
            dateBlock (hasDateHeader parts.headers) ctx.date)) := by
  cases hinit : initialSkipLen ctx parts.status with
  | error e =>
    constructor
    · intro hcf
      constructor
      · intro size'
        simp [encodeHeadInner, hinit]
      · intro enc buf ctx' hok
        simp [encodeHeadInner, hinit] at hok
    · intro hcf hini
      exact absurd hini (by simp)
  | ok sl0 =>
    cases hloop : headerLoop
        { skipLen := sl0, skipDate := false, encoding := TransferEncoding.eof,
          ctx := ctx, buf := encodeVersionStatusReason parts.version parts.status }
        parts.headers with
    | error e =>
      constructor
      · intro hcf
        constructor
        · intro size'
          simp [encodeHeadInner, hinit, hloop]
        · intro enc buf ctx' hok
          simp [encodeHeadInner, hinit, hloop] at hok
      · intro hcf hini enc buf ctx' hok
        simp [encodeHeadInner, hinit, hloop] at hok
    | ok st =>
      obtain ⟨hskip, hfcp, hdatep, hencnone, hencsome⟩ := headerLoop_ok_props _ _ _ hloop
      constructor
      · intro hcf
        have hsl : st.skipLen = true := by
          simp [hskip, hcf]
        constructor
        · intro size'
          simp [encodeHeadInner, hinit, hloop, framingBlock, hsl]
        · intro enc buf ctx' hok
          simp only [encodeHeadInner, hinit, hloop, framingBlock, hsl, if_true,
            Except.ok.injEq, Prod.mk.injEq] at hok
          obtain ⟨henc, hbuf, hctx⟩ := hok
          cases hlastF : lastFraming parts.headers with
          | none =>
            rw [lastFraming_none_iff] at hlastF
            rw [hlastF] at hcf
            cases hcf
          | some h =>
            obtain ⟨hclh, hteh⟩ := hencsome h hlastF
            refine ⟨h, rfl, ?_, ?_⟩
            · intro hn
              obtain ⟨v, hv, he⟩ := hclh hn
              exact ⟨v, hv, by rw [← henc, he]⟩
            · intro hn
              rw [← henc]
              exact hteh hn
      · intro hcf hini enc buf ctx' hok
        have hsl0 : sl0 = false := by
          injection hini with hini
        have hsl : st.skipLen = false := by
          simp [hskip, hcf, hsl0]
        have hfc2 : st.ctx.forceClose = ctx.forceClose := by simpa using hfcp
        have hdate2 : st.ctx.date = ctx.date := by simpa using hdatep
        obtain ⟨hbufL, hsdL⟩ := headerLoop_buf_skipDate parts.headers _ st hloop
        have hbuf2 : st.buf = encodeVersionStatusReason parts.version parts.status ++
            headerBytes ctx.forceClose parts.headers := by simpa using hbufL
        have hsd2 : st.skipDate = hasDateHeader parts.headers := by simpa using hsdL
        refine ⟨?_, ?_, ?_⟩
        · rintro rfl
          simp only [encodeHeadInner, hinit, hloop, framingBlock, hsl, Bool.false_eq_true,
            if_false, Except.ok.injEq, Prod.mk.injEq] at hok
          obtain ⟨henc, hbuf, hctx⟩ := hok
          refine ⟨henc.symm, ?_⟩
          rw [← hbuf, hbuf2, hsd2, hfc2, hdate2]
          simp [List.append_assoc]
        · rintro n rfl
          simp only [encodeHeadInner, hinit, hloop, framingBlock, hsl, Bool.false_eq_true,
            if_false, Except.ok.injEq, Prod.mk.injEq] at hok
          obtain ⟨henc, hbuf, hctx⟩ := hok
          refine ⟨henc.symm, ?_⟩
          rw [← hbuf, hbuf2, hsd2, hfc2, hdate2]
          simp [List.append_assoc]
        · rintro rfl
          simp only [encodeHeadInner, hinit, hloop, framingBlock, hsl, Bool.false_eq_true,
            if_false, Except.ok.injEq, Prod.mk.injEq] at hok
          obtain ⟨henc, hbuf, hctx⟩ := hok
          refine ⟨by rw [← henc, ← hctx], ?_⟩
          rw [← hbuf, hbuf2, hsd2, hfc2, hdate2]

/-- Witness for C2: both branches of the theorem applied at concrete inputs.
With a `content-length: 5` service header the encoded head is independent of
the size hint; with no framing header and hint `Sized(7)` the head derives
`content-length` framing. -/
theorem c2_witness :
    (containsFraming [⟨HeaderName.contentLength, "5"⟩] = true ∧
      encodeHeadInner
        { ctype := ConnectionType.KeepAlive, forceClose := false, connectMethod := false,
          expectHeader := false, date := "D" }
        { version := Version.http11, status := 200,
          headers := [⟨HeaderName.contentLength, "5"⟩] }
        (ResponseBodySize.sized 3) =
      encodeHeadInner
        { ctype := ConnectionType.KeepAlive, forceClose := false, connectMethod := false,
          expectHeader := false, date := "D" }
        { version := Version.http11, status := 200,
          headers := [⟨HeaderName.contentLength, "5"⟩] }
        ResponseBodySize.stream) ∧
    (containsFraming ([] : List Header) = false ∧
      TransferEncoding.length 7 = TransferEncoding.length 7) := by
  refine ⟨⟨rfl, ?_⟩, rfl, ?_⟩
  · exact ((c2_framing_resolved_in_favor_of_header
      { ctype := ConnectionType.KeepAlive, forceClose := false, connectMethod := false,
        expectHeader := false, date := "D" }
      { version := Version.http11, status := 200,
        headers := [⟨HeaderName.contentLength, "5"⟩] }
      (ResponseBodySize.sized 3)).1 rfl).1 ResponseBodySize.stream
  · have happ := ((c2_framing_resolved_in_favor_of_header
      { ctype := ConnectionType.KeepAlive, forceClose := false, connectMethod := false,
        expectHeader := false, date := "D" }
      { version := Version.http11, status := 200, headers := [] }
      (ResponseBodySize.sized 7)).2 rfl rfl
      (TransferEncoding.length 7)
      (bs "HTTP/1.1 200 OK\r\ncontent-length: 7\r\ndate: D\r\n\r\n")
      { ctype := ConnectionType.KeepAlive, forceClose := false, connectMethod := false,
        expectHeader := false, date := "D" } (by rfl)).2.1 7 rfl
    exact happ.1.symm ▸ rfl

/-- Counterexample for C3 as stated: a 2xx response encoded while the
connect-method flag is set but whose service headers carry
`content-length: 5` makes `encode_head` return the `Length 5` encoder, not
the `Eof` encoder (the source only debug-asserts that this combination does
not occur). -/
theorem c3_counterexample :
    encodeHeadInner
      { ctype := ConnectionType.KeepAlive, forceClose := false, connectMethod := true,
        expectHeader := false, date := "D" }
      { version := Version.http11, status := 200,
        headers := [⟨HeaderName.contentLength, "5"⟩] }
      ResponseBodySize.none =
      Except.ok (TransferEncoding.length 5,
        bs "HTTP/1.1 200 OK\r\ncontent-length: 5\r\ndate: D\r\n\r\n",
        { ctype := ConnectionType.KeepAlive, forceClose := false, connectMethod := true,
          expectHeader := false, date := "D" }) ∧
    TransferEncoding.length 5 ≠ TransferEncoding.eof := by
  exact ⟨rfl, by decide⟩

/-- C3 (amended): for every 2xx response encoded while the connect-method
flag is set, provided the service headers carry no `Content-Length` or
`Transfer-Encoding` header (the source debug-asserts that they cannot),
`skip_len` is forced true at entry, the encoded head is independent of the
body size hint — in particular no content-length or transfer-encoding
framing header is derived from it — and the returned encoder is `Eof`. -/
theorem c3_connect_2xx_forces_eof (ctx : Ctx) (parts : Parts) (size : ResponseBodySize)
    (hconn : ctx.connectMethod = true) (hsucc : statusIsSuccess parts.status = true)
    (hnof : containsFraming parts.headers = false) :
    initialSkipLen ctx parts.status = Except.ok true ∧
    encodeHeadInner ctx parts size = encodeHeadInner ctx parts ResponseBodySize.none ∧
    ∀ enc buf ctx', encodeHeadInner ctx parts size = Except.ok (enc, buf, ctx') →
      enc = TransferEncoding.eof := by
  have hstat : 200 ≤ parts.status ∧ parts.status ≤ 299 := by
    unfold statusIsSuccess at hsucc
    simp only [Bool.and_eq_true, decide_eq_true_eq] at hsucc
    exact hsucc
  have hinit : initialSkipLen ctx parts.status = Except.ok true := by
    unfold initialSkipLen
    have h101 : ¬ parts.status = 101 := by omega
    rw [if_neg h101, hconn, hsucc]
    rfl
  refine ⟨hinit, ?_⟩
  cases hloop : headerLoop
      { skipLen := true, skipDate := false, encoding := TransferEncoding.eof,
        ctx := ctx, buf := encodeVersionStatusReason parts.version parts.status }
      parts.headers with
  | error e =>
    constructor
    · simp [encodeHeadInner, hinit, hloop]
    · intro enc buf ctx' hok
      simp [encodeHeadInner, hinit, hloop] at hok
  | ok st =>
    obtain ⟨hskip, _, _, hencnone, _⟩ := headerLoop_ok_props _ _ _ hloop
    have hsl : st.skipLen = true := by simp [hskip]
    constructor
    · simp [encodeHeadInner, hinit, hloop, framingBlock, hsl]
    · intro enc buf ctx' hok
      simp only [encodeHeadInner, hinit, hloop, framingBlock, hsl, if_true,
        Except.ok.injEq, Prod.mk.injEq] at hok
      obtain ⟨henc, _, _⟩ := hok
      have hnone : lastFraming parts.headers = Option.none :=
        (lastFraming_none_iff parts.headers).mpr hnof
      rw [← henc, hencnone hnone]

/-- Witness for C3 (amended): the theorem applied to a concrete CONNECT
context, a 204 response with one unrelated header, and size hint
`Sized(9)`. -/
theorem c3_witness :
    ({ ctype := ConnectionType.KeepAlive, forceClose := false, connectMethod := true,
        expectHeader := false, date := "D" : Ctx }).connectMethod = true ∧
    statusIsSuccess 204 = true ∧
    containsFraming [⟨HeaderName.other "server", "x"⟩] = false ∧
    initialSkipLen
      { ctype := ConnectionType.KeepAlive, forceClose := false, connectMethod := true,
        expectHeader := false, date := "D" } 204 = Except.ok true := by
  refine ⟨rfl, rfl, rfl, ?_⟩
  exact (c3_connect_2xx_forces_eof
    { ctype := ConnectionType.KeepAlive, forceClose := false, connectMethod := true,
      expectHeader := false, date := "D" }
    { version := Version.http11, status := 204,
      headers := [⟨HeaderName.other "server", "x"⟩] }
    (ResponseBodySize.sized 9) rfl rfl rfl).1

/-- C4: every informational (1xx) status other than 101 is refused by
`encode_head` with `ProtoError::Parse(Parse::StatusCode)`, while a 101
response is never refused on status grounds. -/
theorem c4_informational_refused_except_101 (ctx : Ctx) (parts : Parts)
    (size : ResponseBodySize) :
    (statusIsInformational parts.status = true → parts.status ≠ 101 →
      encodeHeadInner ctx parts size =
        Except.error (ProtoError.Parse Parse.StatusCode)) ∧
    (parts.status = 101 →
      encodeHeadInner ctx parts size ≠
        Except.error (ProtoError.Parse Parse.StatusCode)) := by
  constructor
  · intro hinf h101
    have hstat : 100 ≤ parts.status ∧ parts.status ≤ 199 := by
      unfold statusIsInformational at hinf
      simp only [Bool.and_eq_true, decide_eq_true_eq] at hinf
      exact hinf
    have hinit : initialSkipLen ctx parts.status =
        Except.error (ProtoError.Parse Parse.StatusCode) := by
      unfold initialSkipLen
      have hsucc : statusIsSuccess parts.status = false := by
        unfold statusIsSuccess
        simp only [Bool.and_eq_false_iff, decide_eq_false_iff_not]
        left
        omega
      rw [if_neg h101, hsucc, Bool.and_false, if_neg (by simp), if_pos hinf]
    simp [encodeHeadInner, hinit]
  · intro h101
    have hinit : initialSkipLen ctx parts.status = Except.ok false := by
      unfold initialSkipLen
      rw [if_pos h101]
    cases hloop : headerLoop
        { skipLen := false, skipDate := false, encoding := TransferEncoding.eof,
          ctx := ctx, buf := encodeVersionStatusReason parts.version parts.status }
        parts.headers with
    | error e =>
      have he := headerLoop_error_headerValue _ _ _ hloop
      simp [encodeHeadInner, hinit, hloop, he]
    | ok st =>
      simp [encodeHeadInner, hinit, hloop]

/-- Witness for C4: status 100 is refused with `Parse::StatusCode`; status
101 is not refused on status grounds. -/
theorem c4_witness :
    statusIsInformational 100 = true ∧ (100 : Nat) ≠ 101 ∧
    encodeHeadInner
      { ctype := ConnectionType.KeepAlive, forceClose := false, connectMethod := false,
        expectHeader := false, date := "D" }
      { version := Version.http11, status := 100, headers := [] }
      ResponseBodySize.none =
      Except.error (ProtoError.Parse Parse.StatusCode) ∧
    encodeHeadInner
      { ctype := ConnectionType.KeepAlive, forceClose := false, connectMethod := false,
        expectHeader := false, date := "D" }
      { version := Version.http11, status := 101, headers := [] }
      ResponseBodySize.none ≠
      Except.error (ProtoError.Parse Parse.StatusCode) := by
  refine ⟨rfl, by decide, ?_, ?_⟩
  · exact (c4_informational_refused_except_101
      { ctype := ConnectionType.KeepAlive, forceClose := false, connectMethod := false,
        expectHeader := false, date := "D" }
      { version := Version.http11, status := 100, headers := [] }
      ResponseBodySize.none).1 rfl (by decide)
  · exact (c4_informational_refused_except_101
      { ctype := ConnectionType.KeepAlive, forceClose := false, connectMethod := false,
        expectHeader := false, date := "D" }
      { version := Version.http11, status := 101, headers := [] }
      ResponseBodySize.none).2 rfl

/-!
Model of `Dispatcher::run` (`dispatcher.rs`).  The asynchronous environment —
socket readiness, timer expiry, what `decode_head` finds in the read buffer,
and what the service does while a request is handled — is an explicit input:
a list of per-iteration events.  The observable steps of the loop are
recorded as an action trace.
-/

/-- Observable actions of the dispatcher run loop. -/
inductive Action
  | waitRead
  | dispatch
  | encodeCanned (status : Nat)
  | drainWrite
  | shutdownConn
deriving DecidableEq, Repr

/-- Result of the modelled dispatcher run. -/
inductive RunResult
  | ok
  | errService
  | errProto
  | errClosed
  | outOfFuel
deriving DecidableEq, Repr

/-- Net effect of handling one successfully parsed request (the
`decode_head` context updates, `request_handler`, `encode_head` and
`response_handler` combined, which are driven by the service and the peer
and therefore environment inputs here): the connection context afterwards,
the response bytes pushed into the write buffer, and whether handling
returned an error. -/
structure ReqEffect where
  ctx : Ctx
  writes : Bytes
  fails : Bool
deriving Repr

/-- Outcome of one `decode_head` call inside the `'req` parse loop.  An
exhausted list plays the role of `Ok(None)` (need more bytes). -/
inductive DecodeOutcome
  | ok (eff : ReqEffect)
  | headerTooLarge
  | badParse
  | fatal
deriving Repr

/-- Outcome of the `read().timeout(timer)` wait at the top of an outer
iteration. -/
inductive ReadOutcome
  | ok
  | timeout
  | closed
deriving DecidableEq, Repr

/-- Environment input for one outer iteration of the run loop. -/
structure IterInput where
  read : ReadOutcome
  outcomes : List DecodeOutcome
deriving Repr

/-- Dispatcher I/O state: the connection context, the pending write buffer,
and the bytes already drained to the socket. -/
structure RunState where
  ctx : Ctx
  writeBuf : Bytes
  sent : Bytes
deriving Repr

/-- Applying the effect of one handled request.  The context is replaced by
the context after handling, except that the sticky force-close flag can only
be set, never cleared (`set_force_close` is the only writer and there is no
clearing operation); the response bytes are appended to the write buffer. -/
def applyEff (st : RunState) (eff : ReqEffect) : RunState :=
  { st with
    ctx := { eff.ctx with forceClose := st.ctx.forceClose || eff.ctx.forceClose },
    writeBuf := st.writeBuf ++ eff.writes }

/-- Modelled from the spec: the canned error responses
(`crate::response::header_too_large` and `crate::response::bad_request` are
not under `src/`): an HTTP/1.1 response with the given status code, no
headers and no body. -/
def cannedParts (status : Nat) : Parts :=
  { version := Version.http11, status := status, headers := [] }

/-- `Dispatcher::request_error`: set the sticky force-close flag, then
encode the canned response head through the real `encode_head` (body size
hint `None`), propagating its error. -/
def requestErrorModel (st : RunState) (status : Nat) : Except ProtoError RunState :=
  let ctx1 := { st.ctx with forceClose := true }
  match encodeHeadInner ctx1 (cannedParts status) ResponseBodySize.none with
  | Except.error e => Except.error e
  | Except.ok (_, buf, ctx2) =>
    Except.ok { st with ctx := ctx2, writeBuf := st.writeBuf ++ buf }

/-- The inner `'req` parse loop of `Dispatcher::run`, driven by the sequence
of `decode_head` outcomes: on success dispatch the request and apply its
effect, breaking out when the handling set force-close; on `HeaderTooLarge`
encode the canned 431 response and break; on any other parse error encode
the canned 400 response and break; any other protocol error aborts the
connection.  Returns the action trace, the final state, and `some result`
when `run` returns immediately (`none` continues the outer loop). -/
def parseLoop : RunState → List DecodeOutcome → List Action × RunState × Option RunResult
  | st, [] => ([], st, Option.none)
  | st, DecodeOutcome.ok eff :: rest =>
    let st' := applyEff st eff
    if eff.fails then ([Action.dispatch], st', some RunResult.errService)
    else if st'.ctx.forceClose then ([Action.dispatch], st', Option.none)
    else
      let r := parseLoop st' rest
      (Action.dispatch :: r.1, r.2)
  | st, DecodeOutcome.headerTooLarge :: _ =>
    match requestErrorModel st 431 with
    | Except.ok st' => ([Action.encodeCanned 431], st', Option.none)
    | Except.error _ => ([Action.encodeCanned 431], st, some RunResult.errProto)
  | st, DecodeOutcome.badParse :: _ =>
    match requestErrorModel st 400 with
    | Except.ok st' => ([Action.encodeCanned 400], st', Option.none)
    | Except.error _ => ([Action.encodeCanned 400], st, some RunResult.errProto)
  | st, DecodeOutcome.fatal :: _ => ([], st, some RunResult.errProto)

/-- `Io::drain_write`: the pending write buffer is flushed to the socket in
full. -/
def drainState (st : RunState) : RunState :=
  { st with sent := st.sent ++ st.writeBuf, writeBuf := [] }

/-- `Io::shutdown`: drain the write buffer and flush the socket. -/
def shutdownState (st : RunState) : List Action × RunState :=
  ([Action.drainWrite, Action.shutdownConn], drainState st)

/-- Outcome of the connection-type arm at the top of an outer iteration:
either `run` returns, or the iteration proceeds into the parse loop. -/
inductive ArmOutcome
  | exit (acts : List Action) (st : RunState) (res : RunResult)
  | proceed (acts : List Action) (outcomes : List DecodeOutcome) (rest : List IterInput)

/-- The connection-type arm of `Dispatcher::run`: `Init` exits plainly on
sticky force-close or timeout, reads otherwise; `KeepAlive` shuts the socket
down on sticky force-close or timeout, reads otherwise; `Close` and
`Upgrade` always shut down. -/
def connectionArm (st : RunState) (inputs : List IterInput) : ArmOutcome :=
  match st.ctx.ctype with
  | ConnectionType.Init =>
    if st.ctx.forceClose then ArmOutcome.exit [] st RunResult.ok
    else
      match inputs with
      | [] => ArmOutcome.exit [] st RunResult.outOfFuel
      | i :: is =>
        match i.read with
        | ReadOutcome.timeout => ArmOutcome.exit [Action.waitRead] st RunResult.ok
        | ReadOutcome.closed => ArmOutcome.exit [Action.waitRead] st RunResult.errClosed
        | ReadOutcome.ok => ArmOutcome.proceed [Action.waitRead] i.outcomes is
  | ConnectionType.KeepAlive =>
    if st.ctx.forceClose then
      ArmOutcome.exit (shutdownState st).1 (shutdownState st).2 RunResult.ok
    else
      match inputs with
      | [] => ArmOutcome.exit [] st RunResult.outOfFuel
      | i :: is =>
        match i.read with
        | ReadOutcome.timeout =>
          ArmOutcome.exit (Action.waitRead :: (shutdownState st).1) (shutdownState st).2
            RunResult.ok
        | ReadOutcome.closed => ArmOutcome.exit [Action.waitRead] st RunResult.errClosed
        | ReadOutcome.ok => ArmOutcome.proceed [Action.waitRead] i.outcomes is
  | ConnectionType.Close =>
    ArmOutcome.exit (shutdownState st).1 (shutdownState st).2 RunResult.ok
  | ConnectionType.Upgrade =>
    ArmOutcome.exit (shutdownState st).1 (shutdownState st).2 RunResult.ok

/-- The outer loop of `Dispatcher::run`: the connection-type arm, then the
parse loop, then `drain_write`, then around again.  Fuel bounds the number
of outer iterations. -/
def runLoop : Nat → RunState → List IterInput → List Action × RunState × RunResult
  | 0, st, _ => ([], st, RunResult.outOfFuel)
  | Nat.succ fuel, st, inputs =>
    match connectionArm st inputs with
    | ArmOutcome.exit acts st' res => (acts, st', res)
    | ArmOutcome.proceed acts outcomes rest =>
      let r := parseLoop st outcomes
      match r.2.2 with
      | some res => (acts ++ r.1, r.2.1, res)
      | Option.none =>
        let rc := runLoop fuel (drainState r.2.1) rest
        (acts ++ r.1 ++ [Action.drainWrite] ++ rc.1, rc.2)

lemma drainState_drainState (st : RunState) : drainState (drainState st) = drainState st := by
  simp [drainState]

/-- With the sticky force-close flag set at the top of the outer loop, the
dispatcher exits at once: no read is awaited, nothing further is parsed or
dispatched; an `Init` connection exits without touching the socket while
`KeepAlive`, `Close` and `Upgrade` drain and shut the socket down. -/
lemma runLoop_exit_on_forceClose (fuel : Nat) (st : RunState) (inputs : List IterInput)
    (hfc : st.ctx.forceClose = true) :
    runLoop (fuel + 1) st inputs =
      match st.ctx.ctype with
      | ConnectionType.Init => ([], st, RunResult.ok)
      | ConnectionType.KeepAlive =>
        ([Action.drainWrite, Action.shutdownConn], drainState st, RunResult.ok)
      | ConnectionType.Close =>
        ([Action.drainWrite, Action.shutdownConn], drainState st, RunResult.ok)
      | ConnectionType.Upgrade =>
        ([Action.drainWrite, Action.shutdownConn], drainState st, RunResult.ok) := by
  cases hct : st.ctx.ctype with
  | Init => simp [runLoop, connectionArm, hct, hfc]
  | KeepAlive => simp [runLoop, connectionArm, hct, hfc, shutdownState]
  | Close => simp [runLoop, connectionArm, hct, shutdownState]
  | Upgrade => simp [runLoop, connectionArm, hct, shutdownState]

/-- When handling a request sets the sticky force-close flag, the parse loop
dispatches no further request: the remaining decode outcomes are left
untouched and the loop breaks right after that response. -/
lemma parseLoop_break_on_forceClose (st : RunState) (eff : ReqEffect)
    (rest : List DecodeOutcome) (hfail : eff.fails = false)
    (hfc : (applyEff st eff).ctx.forceClose = true) :
    parseLoop st (DecodeOutcome.ok eff :: rest) =
      ([Action.dispatch], applyEff st eff, Option.none) := by
  simp [parseLoop, hfail, hfc]

/-- Full iteration shape: a request whose handling sets force-close is
dispatched, its response bytes stay in the write buffer until the
end-of-iteration `drain_write`, and the next arm check exits — plainly when
the connection type is still `Init`, with socket shutdown otherwise. -/
lemma runLoop_iteration_forceClose (fuel : Nat) (st : RunState) (i : IterInput)
    (is : List IterInput) (eff : ReqEffect) (rest : List DecodeOutcome)
    (hfc0 : st.ctx.forceClose = false)
    (hct : st.ctx.ctype = ConnectionType.Init ∨ st.ctx.ctype = ConnectionType.KeepAlive)
    (hread : i.read = ReadOutcome.ok)
    (houtc : i.outcomes = DecodeOutcome.ok eff :: rest)
    (hfail : eff.fails = false) (heff : eff.ctx.forceClose = true) :
    runLoop (fuel + 2) st (i :: is) =
      (Action.waitRead :: Action.dispatch :: Action.drainWrite ::
        (match eff.ctx.ctype with
          | ConnectionType.Init => ([] : List Action)
          | ConnectionType.KeepAlive => [Action.drainWrite, Action.shutdownConn]
          | ConnectionType.Close => [Action.drainWrite, Action.shutdownConn]
          | ConnectionType.Upgrade => [Action.drainWrite, Action.shutdownConn]),
        drainState (applyEff st eff), RunResult.ok) := by
  have harm : connectionArm st (i :: is) =
      ArmOutcome.proceed [Action.waitRead] i.outcomes is := by
    rcases hct with h | h <;> simp [connectionArm, h, hfc0, hread]
  have hfc1 : (applyEff st eff).ctx.forceClose = true := by
    simp [applyEff, hfc0, heff]
  have hpl := parseLoop_break_on_forceClose st eff rest hfail hfc1
  have hnext := runLoop_exit_on_forceClose fuel (drainState (applyEff st eff)) is
    (by simp [drainState, hfc1])
  show runLoop (Nat.succ (fuel + 1)) st (i :: is) = _
  rw [runLoop, harm]
  simp only [houtc, hpl, hnext]
  have hdct : (drainState (applyEff st eff)).ctx.ctype = eff.ctx.ctype := by
    simp [drainState, applyEff]
  cases hec : eff.ctx.ctype <;>
    simp [hdct, hec, drainState_drainState]

/-- C1: force-close monotonicity.  Once the sticky force-close flag is set,
(i) at the top of the outer loop the dispatcher exits at once — no request
is parsed or dispatched — shutting the socket down for `KeepAlive` (and for
`Close`/`Upgrade`) but not when the connection type is still `Init`;
(ii) inside the parse loop the request whose handling set the flag is the
last one: the remaining decode outcomes are not consumed; and (iii) over a
whole iteration the response completes, the write buffer is drained, and the
dispatcher then exits its top-level loop, with shutdown exactly as in (i). -/
theorem c1_force_close_monotonicity :
    (∀ (fuel : Nat) (st : RunState) (inputs : List IterInput),
      st.ctx.forceClose = true →
      runLoop (fuel + 1) st inputs =
        match st.ctx.ctype with
        | ConnectionType.Init => ([], st, RunResult.ok)
        | ConnectionType.KeepAlive =>
          ([Action.drainWrite, Action.shutdownConn], drainState st, RunResult.ok)
        | ConnectionType.Close =>
          ([Action.drainWrite, Action.shutdownConn], drainState st, RunResult.ok)
        | ConnectionType.Upgrade =>
          ([Action.drainWrite, Action.shutdownConn], drainState st, RunResult.ok)) ∧
    (∀ (st : RunState) (eff : ReqEffect) (rest : List DecodeOutcome),
      eff.fails = false → (applyEff st eff).ctx.forceClose = true →
      parseLoop st (DecodeOutcome.ok eff :: rest) =
        ([Action.dispatch], applyEff st eff, Option.none)) ∧
    (∀ (fuel : Nat) (st : RunState) (i : IterInput) (is : List IterInput)
        (eff : ReqEffect) (rest : List DecodeOutcome),
      st.ctx.forceClose = false →
      st.ctx.ctype = ConnectionType.Init ∨ st.ctx.ctype = ConnectionType.KeepAlive →
      i.read = ReadOutcome.ok → i.outcomes = DecodeOutcome.ok eff :: rest →
      eff.fails = false → eff.ctx.forceClose = true →
      runLoop (fuel + 2) st (i :: is) =
        (Action.waitRead :: Action.dispatch :: Action.drainWrite ::
          (match eff.ctx.ctype with
            | ConnectionType.Init => ([] : List Action)
            | ConnectionType.KeepAlive => [Action.drainWrite, Action.shutdownConn]
            | ConnectionType.Close => [Action.drainWrite, Action.shutdownConn]
            | ConnectionType.Upgrade => [Action.drainWrite, Action.shutdownConn]),
          drainState (applyEff st eff), RunResult.ok)) := by
  exact ⟨runLoop_exit_on_forceClose,
    parseLoop_break_on_forceClose,
    runLoop_iteration_forceClose⟩

/-- Witness for C1: all three parts applied at concrete states — a
force-closed `Init` connection exits without shutdown, a force-closed
`KeepAlive` connection shuts down, a force-closing request breaks the parse
loop, and a full iteration drains then shuts down. -/
theorem c1_witness :
    runLoop 1 ⟨⟨ConnectionType.Init, true, false, false, "D"⟩, [], []⟩ [] =
      ([], ⟨⟨ConnectionType.Init, true, false, false, "D"⟩, [], []⟩, RunResult.ok) ∧
    parseLoop ⟨⟨ConnectionType.KeepAlive, false, false, false, "D"⟩, [], []⟩
      [DecodeOutcome.ok ⟨⟨ConnectionType.KeepAlive, true, false, false, "D"⟩, bs "R", false⟩] =
      ([Action.dispatch],
        ⟨⟨ConnectionType.KeepAlive, true, false, false, "D"⟩, bs "R", []⟩, Option.none) ∧
    runLoop 2 ⟨⟨ConnectionType.KeepAlive, false, false, false, "D"⟩, [], []⟩
      [⟨ReadOutcome.ok, [DecodeOutcome.ok
        ⟨⟨ConnectionType.KeepAlive, true, false, false, "D"⟩, bs "R", false⟩]⟩] =
      ([Action.waitRead, Action.dispatch, Action.drainWrite, Action.drainWrite,
          Action.shutdownConn],
        ⟨⟨ConnectionType.KeepAlive, true, false, false, "D"⟩, [], bs "R"⟩, RunResult.ok) := by
  refine ⟨?_, ?_, ?_⟩
  · exact c1_force_close_monotonicity.1 0
      ⟨⟨ConnectionType.Init, true, false, false, "D"⟩, [], []⟩ [] rfl
  · exact c1_force_close_monotonicity.2.1
      ⟨⟨ConnectionType.KeepAlive, false, false, false, "D"⟩, [], []⟩
      ⟨⟨ConnectionType.KeepAlive, true, false, false, "D"⟩, bs "R", false⟩ [] rfl rfl
  · exact c1_force_close_monotonicity.2.2 0
      ⟨⟨ConnectionType.KeepAlive, false, false, false, "D"⟩, [], []⟩
      ⟨ReadOutcome.ok, [DecodeOutcome.ok
        ⟨⟨ConnectionType.KeepAlive, true, false, false, "D"⟩, bs "R", false⟩]⟩ []
      ⟨⟨ConnectionType.KeepAlive, true, false, false, "D"⟩, bs "R", false⟩ []
      rfl (Or.inr rfl) rfl rfl rfl rfl

/-- Head bytes of a canned error response as the real `encode_head` produces
them under force-close: status line, `connection: close`, cached date,
terminating CRLF. -/
def cannedHead (status : Nat) (reason : String) (date : String) : Bytes :=
  bs "HTTP/1.1 " ++ bs (toString status) ++ bs " " ++ bs reason ++ bs "\r\n" ++
    bs "connection: close\r\n" ++ bs "date: " ++ bs date ++ bs "\r\n\r\n"

lemma initialSkipLen_of_plain_status (ctx : Ctx) (status : Nat)
    (h1 : status ≠ 101) (h2 : statusIsSuccess status = false)
    (h3 : statusIsInformational status = false) :
    initialSkipLen ctx status = Except.ok false := by
  unfold initialSkipLen
  rw [if_neg h1, h2, Bool.and_false, h3]
  rfl

lemma requestErrorModel_431 (st : RunState) :
    requestErrorModel st 431 =
      Except.ok
        { st with
          ctx := { st.ctx with forceClose := true },
          writeBuf := st.writeBuf ++
            cannedHead 431 "Request Header Fields Too Large" st.ctx.date } := by
  have hinit := initialSkipLen_of_plain_status { st.ctx with forceClose := true } 431
    (by decide) (by decide) (by decide)
  simp [requestErrorModel, cannedParts, encodeHeadInner, hinit, headerLoop,
    framingBlock, dateBlock, encodeVersionStatusReason, cannedHead, canonicalReason]

lemma requestErrorModel_400 (st : RunState) :
    requestErrorModel st 400 =
      Except.ok
        { st with
          ctx := { st.ctx with forceClose := true },
          writeBuf := st.writeBuf ++ cannedHead 400 "Bad Request" st.ctx.date } := by
  have hinit := initialSkipLen_of_plain_status { st.ctx with forceClose := true } 400
    (by decide) (by decide) (by decide)
  simp [requestErrorModel, cannedParts, encodeHeadInner, hinit, headerLoop,
    framingBlock, dateBlock, encodeVersionStatusReason, cannedHead, canonicalReason]

/-- C7: a `HeaderTooLarge` parse failure makes the dispatcher encode the
canned 431 response head (with `connection: close`), set the sticky
force-close flag, and break out of the parse loop without touching the
remaining decode outcomes; any other parse failure does the same with the
canned 400 response. -/
theorem c7_parse_errors_get_canned_responses (st : RunState) (rest : List DecodeOutcome) :
    parseLoop st (DecodeOutcome.headerTooLarge :: rest) =
      ([Action.encodeCanned 431],
        { st with
          ctx := { st.ctx with forceClose := true },
          writeBuf := st.writeBuf ++
            cannedHead 431 "Request Header Fields Too Large" st.ctx.date },
        Option.none) ∧
    parseLoop st (DecodeOutcome.badParse :: rest) =
      ([Action.encodeCanned 400],
        { st with
          ctx := { st.ctx with forceClose := true },
          writeBuf := st.writeBuf ++ cannedHead 400 "Bad Request" st.ctx.date },
        Option.none) := by
  constructor
  · simp [parseLoop, requestErrorModel_431]
  · simp [parseLoop, requestErrorModel_400]

/-!
Model of `Dispatcher::request_handler`.  The expect service, the service
future, and the request-body pump race are environment-driven; the wait
points and observable side effects are recorded as actions, and the write
buffer and drained socket bytes are threaded through explicitly.
-/

/-- `Context::encode_continue` of `encode.rs`: writes the static continue
line into the write buffer. -/
def encodeContinue (buf : Bytes) : Bytes :=
  writeStatic buf (bs "HTTP/1.1 100 Continue\r\n\r\n")

/-- Observable actions of the request handler. -/
inductive RHAction
  | callExpect
  | writeContinue
  | drainWrite
  | pollService
  | tryRead
  | feedError
deriving DecidableEq, Repr

/-- Result of the request handler. -/
inductive RHResult
  | success
  | serviceError
  | ioError
  | outOfEvents
deriving DecidableEq, Repr

/-- Resolution of the two-way race in the body-pump loop of
`request_handler`: the service future completed (with success flag), or the
socket turned readable with the body handle ready (with the `try_read`
result), or the body channel reported a send error while waiting. -/
inductive RHSel
  | svcDone (ok : Bool)
  | readReady (readOk : Bool)
  | chanErr
deriving Repr

/-- One environment event of the body-pump loop: what `handle.decode` found
and, when decoding can continue, how the race resolved. -/
inductive RHEvent
  | decodeEof
  | decodeErr
  | cont (sel : RHSel)
deriving Repr

/-- The body-pump loop of `request_handler` (`while let Some(handle) =
body_handle`): each iteration decodes buffered request-body bytes into the
channel and races the service future against readability; once the handle is
retired (EOF or channel error) the service future is simply awaited.  Every
race point polls the service future, recorded as `pollService`; `finalOk` is
the outcome of the service future at its completion. -/
def bodyPump : Bool → List RHEvent → Bool → List RHAction × RHResult
  | false, _, finalOk =>
    ([RHAction.pollService], if finalOk then RHResult.success else RHResult.serviceError)
  | true, [], _ => ([], RHResult.outOfEvents)
  | true, RHEvent.decodeEof :: rest, finalOk => bodyPump false rest finalOk
  | true, RHEvent.decodeErr :: _, _ => ([], RHResult.ioError)
  | true, RHEvent.cont (RHSel.svcDone ok) :: _, _ =>
    ([RHAction.pollService], if ok then RHResult.success else RHResult.serviceError)
  | true, RHEvent.cont (RHSel.readReady readOk) :: rest, finalOk =>
    if readOk then
      let r := bodyPump true rest finalOk
      (RHAction.pollService :: RHAction.tryRead :: r.1, r.2)
    else ([RHAction.pollService, RHAction.tryRead], RHResult.ioError)
  | true, RHEvent.cont RHSel.chanErr :: rest, finalOk =>
    let r := bodyPump false rest finalOk
    (RHAction.pollService :: RHAction.feedError :: r.1, r.2)

/-- `Dispatcher::request_handler`: for an expect-continue request the expect
service runs first; on its success the dispatcher writes the continue line
into the write buffer and drain-writes it to the socket, then enters the
body-pump loop; on its failure it returns a service error having written
nothing.  Returns the action trace, the final write buffer, the bytes
drained to the socket, and the result. -/
def requestHandler (expectHeader expectOk : Bool) (hasHandle : Bool)
    (events : List RHEvent) (finalOk : Bool) (wbuf sent : Bytes) :
    List RHAction × Bytes × Bytes × RHResult :=
  if expectHeader then
    if expectOk then
      let wbuf1 := encodeContinue wbuf
      let sent1 := sent ++ wbuf1
      let r := bodyPump hasHandle events finalOk
      (RHAction.callExpect :: RHAction.writeContinue :: RHAction.drainWrite :: r.1,
        [], sent1, r.2)
    else ([RHAction.callExpect], wbuf, sent, RHResult.serviceError)
  else
    let r := bodyPump hasHandle events finalOk
    (r.1, wbuf, sent, r.2)

lemma bodyPump_no_writeContinue (events : List RHEvent) :
    ∀ (h : Bool) (finalOk : Bool),
      RHAction.writeContinue ∉ (bodyPump h events finalOk).1 := by
  induction events with
  | nil =>
    intro h finalOk
    cases h <;> simp [bodyPump]
  | cons e rest ih =>
    intro h finalOk
    cases h with
    | false => simp [bodyPump]
    | true =>
      cases e with
      | decodeEof => simp [bodyPump]
      | decodeErr => simp [bodyPump]
      | cont sel =>
        cases sel with
        | svcDone ok => simp [bodyPump]
        | readReady readOk =>
          cases readOk with
          | false => simp [bodyPump]
          | true =>
            simp only [bodyPump, if_true, List.mem_cons]
            push_neg
            exact ⟨by simp, by simp, ih true finalOk⟩
        | chanErr => simp [bodyPump]

/-- C8: for a request with the expect header, when the expect service
succeeds the dispatcher writes exactly one `HTTP/1.1 100 Continue\r\n\r\n`
into the write buffer and drains it to the socket before the service future
is first polled (every `pollService` lies strictly after the
`writeContinue`/`drainWrite` prefix, and the body-pump loop never writes a
continue line); when the expect service fails, nothing is written and the
error is returned as a service error. -/
theorem c8_expect_continue_once_before_service (hasHandle : Bool)
    (events : List RHEvent) (finalOk : Bool) (wbuf sent : Bytes) :
    (requestHandler true true hasHandle events finalOk wbuf sent =
      (RHAction.callExpect :: RHAction.writeContinue :: RHAction.drainWrite ::
          (bodyPump hasHandle events finalOk).1,
        [], sent ++ wbuf ++ bs "HTTP/1.1 100 Continue\r\n\r\n",
        (bodyPump hasHandle events finalOk).2)) ∧
    RHAction.writeContinue ∉ (bodyPump hasHandle events finalOk).1 ∧
    (requestHandler true true hasHandle events finalOk wbuf sent).1.count
      RHAction.writeContinue = 1 ∧
    (requestHandler true false hasHandle events finalOk wbuf sent =
      ([RHAction.callExpect], wbuf, sent, RHResult.serviceError)) := by
  refine ⟨?_, bodyPump_no_writeContinue events hasHandle finalOk, ?_, ?_⟩
  · simp [requestHandler, encodeContinue, writeStatic]
  · have hno := bodyPump_no_writeContinue events hasHandle finalOk
    simp [requestHandler, List.count_cons, List.count_eq_zero.mpr hno]
  · simp [requestHandler]

/-!
Model of `Dispatcher::response_handler`.  The response body stream, socket
readiness and the request-body channel are environment-driven; the transfer
encoder and the write buffer are the real ones.
-/

/-- Resolution of the select race inside the response loop: a body chunk
(with its `Result` flag), end of the body stream, writability, readability
(with the `try_read` result), or a body-channel send error. -/
inductive RespSel
  | chunk (b : Bytes) (ok : Bool)
  | done
  | canWrite (ok : Bool)
  | canRead (ok : Bool)
  | chanErr
deriving Repr

/-- One environment event of the response loop: write-buffer backpressure
observed, the request-body decode outcome, or the select resolution. -/
inductive RespEvent
  | backpressure
  | decodeEof
  | decodeErr
  | sel (s : RespSel)
deriving Repr

/-- Observable actions of the response handler. -/
inductive RespAction
  | drainWrite
  | setForceClose
  | encodeEofCall
  | encodeBody
  | tryWrite
  | tryRead
  | feedError
deriving DecidableEq, Repr

/-- Result of the response handler; `panicked` is the `unreachable!` of
`encode_eof`. -/
inductive RespResult
  | ok
  | bodyError
  | ioError
  | panicked
  | outOfEvents
  | invalidEvent
deriving DecidableEq, Repr

/-- `Dispatcher::response_handler`: loop on backpressure drains, request-body
decoding (while the body handle is alive — the `Option Bool` carries
`sender.is_eof()`), and the select over response-body progress, writability
and readability.  When the response body stream ends (`done`) with a live
handle whose sender has not reached EOF, the sticky force-close flag is set
before `encode_eof` runs and the handler returns. -/
def respHandler : TransferEncoding → Option Bool → List RespEvent → Bytes → Bool →
    List RespAction × Bytes × TransferEncoding × Bool × RespResult
  | enc, _, [], buf, fc => ([], buf, enc, fc, RespResult.outOfEvents)
  | enc, handle, ev :: rest, buf, fc =>
    match ev with
    | RespEvent.backpressure =>
      let r := respHandler enc handle rest [] fc
      (RespAction.drainWrite :: r.1, r.2)
    | RespEvent.decodeEof =>
      match handle with
      | some _ => respHandler enc Option.none rest buf fc
      | Option.none => ([], buf, enc, fc, RespResult.invalidEvent)
    | RespEvent.decodeErr =>
      match handle with
      | some _ => ([], buf, enc, fc, RespResult.ioError)
      | Option.none => ([], buf, enc, fc, RespResult.invalidEvent)
    | RespEvent.sel s =>
      match s with
      | RespSel.chunk b ok =>
        if ok then
          let p := TransferEncoding.encode enc b buf
          let r := respHandler p.1 handle rest p.2 fc
          (RespAction.encodeBody :: r.1, r.2)
        else ([], buf, enc, fc, RespResult.bodyError)
      | RespSel.done =>
        match handle with
        | some senderEof =>
          let fc' := if senderEof then fc else true
          let acts := if senderEof then [RespAction.encodeEofCall]
            else [RespAction.setForceClose, RespAction.encodeEofCall]
          match TransferEncoding.encodeEof enc buf with
          | some bufF => (acts, bufF, enc, fc', RespResult.ok)
          | Option.none => (acts, buf, enc, fc', RespResult.panicked)
        | Option.none =>
          match TransferEncoding.encodeEof enc buf with
          | some bufF => ([RespAction.encodeEofCall], bufF, enc, fc, RespResult.ok)
          | Option.none => ([RespAction.encodeEofCall], buf, enc, fc, RespResult.panicked)
      | RespSel.canWrite ok =>
        if ok then
          let r := respHandler enc handle rest buf fc
          (RespAction.tryWrite :: r.1, r.2)
        else ([], buf, enc, fc, RespResult.ioError)
      | RespSel.canRead ok =>
        match handle with
        | some _ =>
          if ok then
            let r := respHandler enc handle rest buf fc
            (RespAction.tryRead :: r.1, r.2)
          else ([], buf, enc, fc, RespResult.ioError)
        | Option.none => ([], buf, enc, fc, RespResult.invalidEvent)
      | RespSel.chanErr =>
        match handle with
        | some _ =>
          let r := respHandler enc Option.none rest buf fc
          (RespAction.feedError :: r.1, r.2)
        | Option.none => ([], buf, enc, fc, RespResult.invalidEvent)

/-- C9: when the response body stream yields `None` while a live
request-body handle exists whose sender has not reached EOF, the response
handler sets the sticky force-close flag, then calls `encode_eof`, and
returns at once — the remaining events are not consumed, so the unread
request-body bytes are never drained. -/
theorem c9_partial_request_body_forces_close (enc : TransferEncoding)
    (rest : List RespEvent) (buf : Bytes) (fc : Bool) :
    respHandler enc (some false) (RespEvent.sel RespSel.done :: rest) buf fc =
      ([RespAction.setForceClose, RespAction.encodeEofCall],
        (match TransferEncoding.encodeEof enc buf with
          | some bufF => bufF
          | Option.none => buf),
        enc, true,
        match TransferEncoding.encodeEof enc buf with
        | some _ => RespResult.ok
        | Option.none => RespResult.panicked) := by
  cases he : TransferEncoding.encodeEof enc buf <;> simp [respHandler, he]

/-- Witness for C5: the chunked encoder at a concrete buffer. -/
theorem c5_witness :
    TransferEncoding.encode TransferEncoding.chunked (bs "") (bs "X") =
      (TransferEncoding.chunked, bs "X") ∧
    (TransferEncoding.encodeEof TransferEncoding.chunked (bs "X") =
        some (bs "X" ++ bs "0\r\n\r\n") ↔
      TransferEncoding.chunked.kind = Kind.EncodeChunked) :=
  c5_empty_encode_and_eof_terminator TransferEncoding.chunked (bs "X")

/-- Witness for C6: a `Length 2` encoder truncates `abc` to `ab`, and a
two-chunk sequence never writes more than 2 bytes. -/
theorem c6_witness :
    TransferEncoding.encode (TransferEncoding.length 2) (bs "abc") [] =
      (TransferEncoding.length 0, bs "ab") ∧
    (encodeAll (TransferEncoding.length 2) [bs "abc", bs "de"] []).2.length ≤ 2 := by
  constructor
  · exact (c6_length_encoder_truncates 2 (bs "abc") []).1
  · exact (c6_length_encoder_truncates 2 (bs "abc") []).2 [bs "abc", bs "de"]

/-- Witness for C7: the canned responses at a concrete dispatcher state with
one further (never-parsed) outcome pending. -/
theorem c7_witness :
    parseLoop ⟨⟨ConnectionType.KeepAlive, false, false, false, "D"⟩, [], []⟩
        [DecodeOutcome.headerTooLarge, DecodeOutcome.fatal] =
      ([Action.encodeCanned 431],
        ⟨⟨ConnectionType.KeepAlive, true, false, false, "D"⟩,
          cannedHead 431 "Request Header Fields Too Large" "D", []⟩,
        Option.none) ∧
    parseLoop ⟨⟨ConnectionType.KeepAlive, false, false, false, "D"⟩, [], []⟩
        [DecodeOutcome.badParse, DecodeOutcome.fatal] =
      ([Action.encodeCanned 400],
        ⟨⟨ConnectionType.KeepAlive, true, false, false, "D"⟩,
          cannedHead 400 "Bad Request" "D", []⟩,
        Option.none) := by
  constructor
  · exact (c7_parse_errors_get_canned_responses
      ⟨⟨ConnectionType.KeepAlive, false, false, false, "D"⟩, [], []⟩
      [DecodeOutcome.fatal]).1
  · exact (c7_parse_errors_get_canned_responses
      ⟨⟨ConnectionType.KeepAlive, false, false, false, "D"⟩, [], []⟩
      [DecodeOutcome.fatal]).2

/-- Witness for C8: a concrete expect-continue request whose service
completes at the first race point. -/
theorem c8_witness :
    requestHandler true true true [RHEvent.cont (RHSel.svcDone true)] true (bs "W") [] =
      ([RHAction.callExpect, RHAction.writeContinue, RHAction.drainWrite,
          RHAction.pollService],
        [], bs "W" ++ bs "HTTP/1.1 100 Continue\r\n\r\n", RHResult.success) ∧
    requestHandler true false true [RHEvent.cont (RHSel.svcDone true)] true (bs "W") [] =
      ([RHAction.callExpect], bs "W", [], RHResult.serviceError) := by
  constructor
  · exact ((c8_expect_continue_once_before_service true
      [RHEvent.cont (RHSel.svcDone true)] true (bs "W") []).1).trans (by rfl)
  · exact (c8_expect_continue_once_before_service true
      [RHEvent.cont (RHSel.svcDone true)] true (bs "W") []).2.2.2

/-- Witness for C9: a chunked response whose body ends while the request
body is unread — force-close is set and the chunk terminator written. -/
theorem c9_witness :
    respHandler TransferEncoding.chunked (some false)
        [RespEvent.sel RespSel.done, RespEvent.backpressure] (bs "H") false =
      ([RespAction.setForceClose, RespAction.encodeEofCall],
        bs "H" ++ bs "0\r\n\r\n", TransferEncoding.chunked, true, RespResult.ok) := by
  exact (c9_partial_request_body_forces_close TransferEncoding.chunked
    [RespEvent.backpressure] (bs "H") false).trans (by rfl)

/-- Witness for C10: `encode_eof` on `Length 3` panics. -/
theorem c10_witness :
    TransferEncoding.encodeEof (TransferEncoding.length 3) (bs "H") = none :=
  c10_encode_eof_underrun_panics 2 (bs "H")

end H1
